import Mathlib

/-!
# Verification of the paginated, filtered fetch pipeline of `github_pr.py`

Shallow embedding of the functions of `src/github_pr.py` that the claims
concern: `validate_date` (CPython `datetime.strptime(date_str, "%Y-%m-%d")`
semantics, restricted to ASCII digits) and `fetch_pull_requests` (the
paginated fetch loop, modelled against a scripted sequence of HTTP
responses standing for the mocked client).
-/

namespace GithubPR

/-! ## `validate_date`

The Python source is:

    def validate_date(date_str: str) -> bool:
        try:
            datetime.strptime(date_str, "%Y-%m-%d")
            return True
        except ValueError:
            return False

CPython's `_strptime` compiles `"%Y-%m-%d"` to the regular expression
`(?P<Y>\d\d\d\d)-(?P<m>1[0-2]|0[1-9]|[1-9])-(?P<d>3[01]|[12]\d|0[1-9]|[1-9])`,
matches it at the start of the string, and raises `ValueError` when the match
fails or when unconverted data remains after the match.  It then constructs
`datetime(year, month, day)`, which raises `ValueError` when `year = 0` or
when `day` exceeds the number of days of the month.  The embedding below
replays the regex alternation order, including backtracking of the month
alternatives into the following literal `-` and day pattern; `\d` is
modelled as the ASCII digits `0`–`9`.
-/

/-- ASCII digit test: models `\d` of the strptime regex restricted to the
ASCII digits `0`–`9`.  CPython compiles the pattern without `re.ASCII`, so
the program's `\d` also matches every other Unicode decimal digit (category
`Nd`, e.g. `"٢٠٢٣-01-01"` validates); the embedding models the ASCII
subset, and every statement comparing `validate_date` with a date-syntax
predicate over all strings is therefore scoped to ASCII inputs, on which
the model and the program agree. -/
def isD (c : Char) : Bool := 48 ≤ c.toNat && c.toNat ≤ 57

/-- Numeric value of an ASCII digit character. -/
def dv (c : Char) : Nat := c.toNat - 48

/-- All characters of the list are ASCII digits. -/
def allD (l : List Char) : Bool := l.all isD

/-- Numeric value of a list of ASCII digit characters, most significant
first. -/
def digitsVal (l : List Char) : Nat := l.foldl (fun a c => a * 10 + dv c) 0

/-- `(?P<Y>\d\d\d\d)`: exactly four digits. -/
def parseYear : List Char → Option (Nat × List Char)
  | c1 :: c2 :: c3 :: c4 :: rest =>
    if isD c1 && isD c2 && isD c3 && isD c4 then
      some (dv c1 * 1000 + dv c2 * 100 + dv c3 * 10 + dv c4, rest)
    else none
  | _ => none

/-- The literal `-` (code point 45) of the format string. -/
def parseDash : List Char → Option (List Char)
  | [] => none
  | c :: rest => if c.toNat = 45 then some rest else none

/-- `(?P<d>3[0-1]|[1-2]\d|0[1-9]|[1-9]| [1-9])`: the day alternatives of
CPython 3.11+, tried in regex order (character conditions written on code
points: `'0'`–`'9'` are 48–57, the space is 32).  The day group is the last
element of the pattern, so the first alternative that matches wins.  The
final alternative accepts a space-padded single day digit (`" 1"`–`" 9"`). -/
def parseDay2 : List Char → Option (Nat × List Char)
  | [] => none
  | c :: rest =>
    match rest with
    | c2 :: rest2 =>
      if c.toNat = 51 && (c2.toNat = 48 || c2.toNat = 49) then some (30 + dv c2, rest2)
      else if (c.toNat = 49 || c.toNat = 50) && isD c2 then some (dv c * 10 + dv c2, rest2)
      else if c.toNat = 48 && (49 ≤ c2.toNat && c2.toNat ≤ 57) then some (dv c2, rest2)
      else if 49 ≤ c.toNat && c.toNat ≤ 57 then some (dv c, c2 :: rest2)
      else if c.toNat = 32 && (49 ≤ c2.toNat && c2.toNat ≤ 57) then some (dv c2, rest2)
      else none
    | [] =>
      if 49 ≤ c.toNat && c.toNat ≤ 57 then some (dv c, []) else none

/-- Continuation after the month group: the literal `-` followed by the day
group. -/
def parseDashDay (l : List Char) : Option (Nat × List Char) :=
  match parseDash l with
  | some r => parseDay2 r
  | none => none

/-- `(?P<m>1[0-2]|0[1-9]|[1-9])-(?P<d>...)`: the month alternatives in regex
order.  A two-character month alternative that matches but whose continuation
(`-` and the day group) fails is backtracked, and the later alternatives are
tried, exactly as the regex engine does. -/
def parseMonthDay : List Char → Option (Nat × Nat × List Char)
  | [] => none
  | [c] =>
    if 49 ≤ c.toNat && c.toNat ≤ 57 then
      match parseDashDay [] with
      | some (d, r) => some (dv c, d, r)
      | none => none
    else none
  | c :: c2 :: rest2 =>
    match (if c.toNat = 49 && (48 ≤ c2.toNat && c2.toNat ≤ 50) then
             match parseDashDay rest2 with
             | some (d, r) => some (10 + dv c2, d, r)
             | none => none
           else none : Option (Nat × Nat × List Char)) with
    | some x => some x
    | none =>
      match (if c.toNat = 48 && (49 ≤ c2.toNat && c2.toNat ≤ 57) then
               match parseDashDay rest2 with
               | some (d, r) => some (dv c2, d, r)
               | none => none
             else none : Option (Nat × Nat × List Char)) with
      | some x => some x
      | none =>
        if 49 ≤ c.toNat && c.toNat ≤ 57 then
          match parseDashDay (c2 :: rest2) with
          | some (d, r) => some (dv c, d, r)
          | none => none
        else none

/-- `datetime.strptime(s, "%Y-%m-%d")` as a partial function to the parsed
`(year, month, day)`: the compiled regex must match at the start of the
string and no unconverted data may remain. -/
def strptimeYMD (s : String) : Option (Nat × Nat × Nat) :=
  match parseYear s.data with
  | some (y, r1) =>
    match parseDash r1 with
    | some r2 =>
      match parseMonthDay r2 with
      | some (m, d, rest) => if rest.isEmpty then some (y, m, d) else none
      | none => none
    | none => none
  | none => none

/-- Gregorian leap-year rule used by `datetime`. -/
def isLeapYear (y : Nat) : Bool := y % 4 == 0 && (y % 100 != 0 || y % 400 == 0)

/-- Number of days of month `m` of year `y`, as checked by the `datetime`
constructor. -/
def daysInMonth (y m : Nat) : Nat :=
  if m = 2 then (if isLeapYear y then 29 else 28)
  else if m = 4 ∨ m = 6 ∨ m = 9 ∨ m = 11 then 30
  else 31

/-- `validate_date`: `strptime` must succeed, and the `datetime(year, month,
day)` constructor must accept the fields (`MINYEAR = 1`; the regex already
bounds the month by 12 and the day by 31, and a four-digit year is at most
`MAXYEAR = 9999`).  Faithful to CPython 3.11+ on ASCII strings, including
the space-padded day (`"2023-01- 1"` validates); on non-ASCII strings the
program is more liberal than this model because `\d` also matches non-ASCII
Unicode decimal digits (see `isD`). -/
def validate_date (s : String) : Bool :=
  match strptimeYMD s with
  | some (y, m, d) => decide (1 ≤ y) && decide (1 ≤ d) && decide (d ≤ daysInMonth y m)
  | none => false

/-! ## `fetch_pull_requests`

The fetch loop of the Python source, driven by a scripted list of HTTP
responses standing for the mocked client: the `n`-th element of the script
is what `session.get` produces for the `n`-th issued request (either a JSON
page, or a raised HTTP error with its status).  If the loop asks for a
request beyond the script, the run is reported as `scriptExhausted` — a model
artifact distinct from every program outcome.

The limit is modelled as `Option Nat` (`None` or a non-negative `int`), date
bounds as `Option String` (`None` or a string).  Python truthiness: `None`,
`0` and `""` are falsy.

A Python subtlety the embedding preserves: the loop's
`except requests.exceptions.RequestException` clause names `requests`, which
is never imported by `github_pr.py` (the module imports `aiohttp`).  When
`response.raise_for_status()` raises, evaluating the `except` clause raises
`NameError`, so the 401/403/404 classification branches are unreachable and
every HTTP failure escapes as `NameError`.  The `try/finally` around the
loop still awaits `session.close()` on that path.
-/

/-- Query parameters of one page request, as built each iteration:
`{"state": status, "page": page, "per_page": 100}` plus the optional
`"created"` constraint. -/
structure Params where
  state : String
  page : Nat
  per_page : Nat
  created : Option String
  deriving DecidableEq, Repr

/-- Observable resource and network events of one `fetch_pull_requests`
invocation, in order. -/
inductive Event where
  | openSession : Event
  | request : Params → Event
  | closeSession : Event
  deriving DecidableEq, Repr

/-- Exceptions the embedded code can raise. -/
inductive PyError where
  /-- `ValueError(msg)` raised by the date-bound validation. -/
  | valueError : String → PyError
  /-- `NameError` raised while evaluating `requests.exceptions.RequestException`
  in the `except` clause after an HTTP error: `requests` is not defined. -/
  | nameError : PyError
  deriving DecidableEq, Repr

/-- One scripted reaction of the HTTP client to a page request. -/
inductive Response (α : Type) where
  /-- A JSON array page. -/
  | batch : List α → Response α
  /-- `session.get` / `raise_for_status` raises with this HTTP status. -/
  | httpFailure : Nat → Response α
  deriving DecidableEq, Repr

/-- Result of a modelled invocation. -/
inductive Outcome (α : Type) where
  /-- The function returned `pulls`. -/
  | ok : List α → Outcome α
  /-- The function raised this exception. -/
  | err : PyError → Outcome α
  /-- Model artifact: the scripted client had no response left for the next
  request the loop would issue. -/
  | scriptExhausted : Outcome α
  deriving DecidableEq, Repr

/-- Python truthiness of an `Optional[str]`: `None` and `""` are falsy. -/
def pyTruthyStr : Option String → Bool
  | none => false
  | some s => !s.isEmpty

/-- Python truthiness of the `Optional[int]` limit: `None` and `0` are
falsy. -/
def limitTruthy : Option Nat → Bool
  | none => false
  | some l => l != 0

/-- The `"created"` entry of `params` after the three sequential `if`
statements of the loop body (each later assignment overwrites the
earlier one). -/
def createdParam (created_after created_before : Option String) : Option String :=
  let p1 : Option String :=
    if pyTruthyStr created_after then some (">=" ++ created_after.getD "") else none
  let p2 : Option String :=
    if pyTruthyStr created_before then some ("<=" ++ created_before.getD "") else p1
  if pyTruthyStr created_after && pyTruthyStr created_before then
    some (created_after.getD "" ++ ".." ++ created_before.getD "")
  else p2

/-- The `while True` loop of `fetch_pull_requests`, returning the outcome and
the list of issued page requests.  `pulls` and `page` are the accumulator and
page counter; `script` is the remaining scripted client behaviour. -/
def fetchLoop (status : String) (limit : Option Nat) (created : Option String)
    (pulls : List α) (page : Nat) : List (Response α) → Outcome α × List Event
  | [] => (Outcome.scriptExhausted, [])
  | r :: script =>
    let ev := Event.request ⟨status, page, 100, created⟩
    match r with
    | Response.httpFailure _ => (Outcome.err PyError.nameError, [ev])
    | Response.batch b =>
      if b.isEmpty then (Outcome.ok pulls, [ev])
      else
        let pulls' := pulls ++ b
        if limitTruthy limit && decide (limit.getD 0 ≤ pulls'.length) then
          (Outcome.ok (pulls'.take (limit.getD 0)), [ev])
        else if decide (b.length < 100) then (Outcome.ok pulls', [ev])
        else
          let res := fetchLoop status limit created pulls' (page + 1) script
          (res.1, ev :: res.2)

/-- `fetch_pull_requests(repository, status, token, limit, created_after,
created_before)` run against a scripted client, returning its outcome and the
ordered trace of session and request events. -/
def fetch_pull_requests (status : String) (limit : Option Nat)
    (created_after created_before : Option String)
    (script : List (Response α)) : Outcome α × List Event :=
  if pyTruthyStr created_after && !validate_date (created_after.getD "") then
    (Outcome.err (PyError.valueError "created_after must be in YYYY-MM-DD format"), [])
  else if pyTruthyStr created_before && !validate_date (created_before.getD "") then
    (Outcome.err (PyError.valueError "created_before must be in YYYY-MM-DD format"), [])
  else
    let res := fetchLoop status limit (createdParam created_after created_before) [] 1 script
    (res.1, Event.openSession :: res.2 ++ [Event.closeSession])

/-- Is the event a page request? -/
def isReq : Event → Bool
  | Event.request _ => true
  | _ => false

/-- Number of page requests issued during an invocation. -/
def requestCount (evs : List Event) : Nat := evs.countP isReq

/-! ## Spec-side definitions

Definitions written from the specification's words, to be compared with the
embedded code. -/

/-- Modelled from the spec (§4.1, step 2a): "if only a lower bound is set,
constrain to created on/after that date; if only an upper bound, created
on/before; if both, created within [lower, upper] inclusive", with the
concrete encodings `">=d"`, `"<=d"` and `"lo..hi"` of §8; no constraint when
neither bound is set. -/
def specCreatedConstraint : Option String → Option String → Option String
  | some lo, some hi => some (lo ++ ".." ++ hi)
  | some lo, none => some (">=" ++ lo)
  | none, some hi => some ("<=" ++ hi)
  | none, none => none

/-- A date bound as an abstract optional value: a bound is "set" exactly when
it is truthy in the Python sense (present and non-empty). -/
def normBound (o : Option String) : Option String :=
  if pyTruthyStr o then o else none

/-- Modelled from the spec (§8 / §7): a syntactically valid calendar-date
string — year, month and day fields joined by `-` separators, all fields
decimal digits, a four-digit year of a representable (positive) year, month
between 1 and 12, day between 1 and the length of that month, month and day
written with one or two digits. -/
def SpecValidDateStr (s : String) : Prop :=
  ∃ ys ms ds : List Char,
    s.data = ys ++ '-' :: (ms ++ '-' :: ds) ∧
    allD ys = true ∧ ys.length = 4 ∧ 1 ≤ digitsVal ys ∧
    allD ms = true ∧ (ms.length = 1 ∨ ms.length = 2) ∧
    1 ≤ digitsVal ms ∧ digitsVal ms ≤ 12 ∧
    allD ds = true ∧ (ds.length = 1 ∨ ds.length = 2) ∧
    1 ≤ digitsVal ds ∧ digitsVal ds ≤ daysInMonth (digitsVal ys) (digitsVal ms)

/-- The extra date shape CPython 3.11+ accepts beyond the spec's calendar-date
syntax: the day field written as a space followed by one nonzero digit (the
`" [1-9]"` alternative of the `%d` pattern); year and month as in the spec's
syntax.  A day value of 1–9 always lies within the month, so no day-range
constraint is needed. -/
def SpaceDayDateStr (s : String) : Prop :=
  ∃ ys ms ch, s.data = ys ++ '-' :: (ms ++ '-' :: [' ', ch]) ∧
    allD ys = true ∧ ys.length = 4 ∧ 1 ≤ digitsVal ys ∧
    allD ms = true ∧ (ms.length = 1 ∨ ms.length = 2) ∧
    1 ≤ digitsVal ms ∧ digitsVal ms ≤ 12 ∧
    49 ≤ ch.toNat ∧ ch.toNat ≤ 57

/-- Shape of a field the day pattern can consume: one or two digits with
value between 1 and 31, or a space followed by one nonzero digit. -/
def DayField (ds : List Char) (d : Nat) : Prop :=
  (allD ds = true ∧ (ds.length = 1 ∨ ds.length = 2) ∧ digitsVal ds = d ∧
    1 ≤ d ∧ d ≤ 31) ∨
  (∃ ch, ds = [' ', ch] ∧ 49 ≤ ch.toNat ∧ ch.toNat ≤ 57 ∧ dv ch = d)

/-- The exact zero-padded `YYYY-MM-DD` shape: four digits, `-`, two digits,
`-`, two digits. -/
def isPaddedShape (s : String) : Bool :=
  match s.data with
  | [y1, y2, y3, y4, h1, m1, m2, h2, d1, d2] =>
    isD y1 && isD y2 && isD y3 && isD y4 && h1.toNat = 45 && h2.toNat = 45 &&
      isD m1 && isD m2 && isD d1 && isD d2
  | _ => false

/-- Did the invocation raise the date-format `ValueError`? -/
def isInvalidDateErr : Outcome α → Bool
  | Outcome.err (PyError.valueError _) => true
  | _ => false

/-- The session discipline of §5: the trace opens exactly one session, as its
first event, and closes it exactly once, as its last event. -/
def scopedSession (evs : List Event) : Bool :=
  evs.head? = some Event.openSession &&
  evs.getLast? = some Event.closeSession &&
  evs.countP (fun e => decide (e = Event.openSession)) = 1 &&
  evs.countP (fun e => decide (e = Event.closeSession)) = 1

/-! ## Sanity evaluations of the embedding -/

example : validate_date "2023-01-01" = true := by decide
example : validate_date "2023-13-01" = false := by decide
example : validate_date "2023-01-32" = false := by decide
example : validate_date "invalid-date" = false := by decide
example : validate_date "2023-1-1" = true := by decide
example : validate_date "2024-02-29" = true := by decide
example : validate_date "2023-02-29" = false := by decide
example : validate_date "2023-11-31" = false := by decide
example : validate_date "0000-01-01" = false := by decide
example : validate_date "2023-01-011" = false := by decide
example : validate_date "2023-123-1" = false := by decide
example : validate_date "" = false := by decide
example : validate_date "2023-01- 1" = true := by decide
example : validate_date "2023-1- 1" = true := by decide
example : validate_date "2023-02- 9" = true := by decide
example : validate_date "2023- 1-1" = false := by decide
example : validate_date "2023-01-  1" = false := by decide
example : validate_date "2023-01- 12" = false := by decide
example : validate_date "2023-01- 0" = false := by decide
example : validate_date "2023-13- 1" = false := by decide

example :
    (fetch_pull_requests "open" none (some "2023-01-01") none
      [Response.batch [(1 : Nat)]]).1 = Outcome.ok [1] := by decide

example :
    requestCount (fetch_pull_requests "open" none (some "invalid-date") none
      ([Response.batch [(1 : Nat)]])).2 = 0 := by decide

example :
    (fetch_pull_requests "open" none none none
      ([Response.httpFailure 401] : List (Response Nat))).1
      = Outcome.err PyError.nameError := by decide

/-! ## Lemmas about the fetch loop -/

/-- Every event emitted by the loop is a page request for the configured
state, page size 100, and the computed `created` constraint. -/
theorem fetchLoop_mem_req {α : Type} (status : String) (limit : Option Nat)
    (created : Option String) (script : List (Response α)) :
    ∀ (pulls : List α) (page : Nat),
      ∀ e ∈ (fetchLoop status limit created pulls page script).2,
        ∃ n, e = Event.request ⟨status, n, 100, created⟩ := by
  induction script with
  | nil => intro pulls page e he; simp [fetchLoop] at he
  | cons r script ih =>
    intro pulls page e he
    cases r with
    | httpFailure s =>
      simp [fetchLoop] at he
      exact ⟨page, by rw [he]⟩
    | batch b =>
      simp only [fetchLoop] at he
      split at he
      · simp at he; exact ⟨page, by rw [he]⟩
      · split at he
        · simp at he; exact ⟨page, by rw [he]⟩
        · split at he
          · simp at he; exact ⟨page, by rw [he]⟩
          · simp only [List.mem_cons] at he
            rcases he with he | he
            · exact ⟨page, by rw [he]⟩
            · exact ih (pulls ++ b) (page + 1) e he

/-- The code's three overwriting `if` statements implement exactly the
spec's case analysis for the `created` constraint. -/
theorem createdParam_spec (ca cb : Option String) :
    createdParam ca cb = specCreatedConstraint (normBound ca) (normBound cb) := by
  cases ca with
  | none =>
    cases cb with
    | none => rfl
    | some b =>
      by_cases hb : b.isEmpty <;>
        simp [createdParam, specCreatedConstraint, normBound, pyTruthyStr, hb]
  | some a =>
    cases cb with
    | none =>
      by_cases ha : a.isEmpty <;>
        simp [createdParam, specCreatedConstraint, normBound, pyTruthyStr, ha]
    | some b =>
      by_cases ha : a.isEmpty <;> by_cases hb : b.isEmpty <;>
        simp [createdParam, specCreatedConstraint, normBound, pyTruthyStr, ha, hb]

/-! ## Claims -/

/-- **C1** (code-bug evaluation).  An HTTP 401 on the first page request does
not surface as a distinct `Unauthorized` error kind: the `except` clause of
the loop names `requests`, which `github_pr.py` never imports, so evaluating
it raises `NameError` and the 401/403/404 classification is unreachable.  The
outcome for a first-request 401 is the same undistinguished `NameError` as
for a 403, and an already-accumulated full page is discarded (the exception
propagates; only the `finally` close runs). -/
theorem fetch_http401_not_distinct :
    (fetch_pull_requests "open" none none none
        ([Response.httpFailure 401] : List (Response Nat)))
      = (Outcome.err PyError.nameError,
         [Event.openSession, Event.request ⟨"open", 1, 100, none⟩,
          Event.closeSession]) ∧
    (fetch_pull_requests "open" none none none
        [Response.batch (List.replicate 100 (0 : Nat)), Response.httpFailure 401]).1
      = Outcome.err PyError.nameError ∧
    (fetch_pull_requests "open" none none none
        ([Response.httpFailure 403] : List (Response Nat))).1
      = Outcome.err PyError.nameError := by
  exact ⟨rfl, by decide, rfl⟩

/-- **C2**: when a supplied (truthy) date bound fails validation, the
invocation raises the date-format `ValueError` and issues zero page
requests (no session is even opened). -/
theorem fetch_invalid_date_no_requests {α : Type} (status : String)
    (limit : Option Nat) (ca cb : Option String) (script : List (Response α))
    (h : (pyTruthyStr ca && !validate_date (ca.getD "")) = true ∨
         (pyTruthyStr cb && !validate_date (cb.getD "")) = true) :
    isInvalidDateErr (fetch_pull_requests status limit ca cb script).1 = true ∧
    requestCount (fetch_pull_requests status limit ca cb script).2 = 0 := by
  unfold fetch_pull_requests
  by_cases h1 : (pyTruthyStr ca && !validate_date (ca.getD "")) = true
  · simp [h1, isInvalidDateErr, requestCount]
  · have h2 := h.resolve_left h1
    simp [h1, h2, isInvalidDateErr, requestCount]

/-- Witness for C2 at the spec's concrete invalid input. -/
theorem fetch_invalid_date_no_requests_witness :
    ((pyTruthyStr (some "invalid-date") &&
        !validate_date ((some "invalid-date").getD "")) = true ∨
     (pyTruthyStr (none : Option String) && !validate_date "") = true) ∧
    isInvalidDateErr (fetch_pull_requests "open" none (some "invalid-date") none
        [Response.batch [(1 : Nat)]]).1 = true ∧
    requestCount (fetch_pull_requests "open" none (some "invalid-date") none
        [Response.batch [(1 : Nat)]]).2 = 0 :=
  ⟨Or.inl (by decide),
   fetch_invalid_date_no_requests "open" none (some "invalid-date") none
     [Response.batch [(1 : Nat)]] (Or.inl (by decide))⟩

/-- **C3**: every page request an invocation issues carries exactly the
`created` constraint the spec prescribes for the set bounds (a bound is set
when present and non-empty): `">=lo"` for only a lower bound, `"<=hi"` for
only an upper bound, `"lo..hi"` for both, and no constraint for neither. -/
theorem fetch_created_constraint {α : Type} (status : String) (limit : Option Nat)
    (ca cb : Option String) (script : List (Response α)) (p : Params)
    (h : Event.request p ∈ (fetch_pull_requests status limit ca cb script).2) :
    p.created = specCreatedConstraint (normBound ca) (normBound cb) := by
  unfold fetch_pull_requests at h
  split at h
  · simp at h
  · split at h
    · simp at h
    · rcases List.mem_cons.mp h with h | h
      · exact Event.noConfusion h
      · rcases List.mem_append.mp h with h | h
        · obtain ⟨n, hn⟩ := fetchLoop_mem_req status limit
            (createdParam ca cb) script [] 1 _ h
          have hs := createdParam_spec ca cb
          rw [Event.request.injEq] at hn
          rw [hn, ← hs]
        · rw [List.mem_singleton] at h
          exact Event.noConfusion h

/-- Witness for C3: a lower bound only, one scripted page. -/
theorem fetch_created_constraint_witness :
    Event.request ⟨"open", 1, 100, some ">=2023-01-01"⟩ ∈
      (fetch_pull_requests "open" none (some "2023-01-01") none
        [Response.batch [(1 : Nat)]]).2 ∧
    (Params.mk "open" 1 100 (some ">=2023-01-01")).created
      = specCreatedConstraint (normBound (some "2023-01-01")) (normBound none) :=
  ⟨by decide,
   fetch_created_constraint "open" none (some "2023-01-01") none
     [Response.batch [(1 : Nat)]] ⟨"open", 1, 100, some ">=2023-01-01"⟩ (by decide)⟩

/-- With a truthy limit `l` and fewer than `l` accumulated records, every
successful run of the loop returns at most `l` records: the truncation
branch caps the accumulator at `l` and every other success branch returns
an accumulator still below `l`. -/
theorem fetchLoop_limit_le {α : Type} (status : String) (created : Option String)
    (l : Nat) (hl : 0 < l) (script : List (Response α)) :
    ∀ (pulls : List α) (page : Nat), pulls.length < l →
      ∀ r, (fetchLoop status (some l) created pulls page script).1 = Outcome.ok r →
        r.length ≤ l := by
  induction script with
  | nil => intro pulls page hp r hr; simp [fetchLoop] at hr
  | cons resp script ih =>
    intro pulls page hp r hr
    cases resp with
    | httpFailure s => simp [fetchLoop] at hr
    | batch b =>
      simp only [fetchLoop] at hr
      split at hr
      · simp only [Outcome.ok.injEq] at hr
        subst hr; omega
      · split at hr
        · simp only [Outcome.ok.injEq] at hr
          subst hr
          simp only [Option.getD_some, List.length_take]
          omega
        · rename_i hlim
          have hlen : (pulls ++ b).length < l := by
            simp only [limitTruthy, Option.getD_some, Bool.and_eq_true,
              decide_eq_true_eq, bne_iff_ne, ne_eq] at hlim
            omega
          split at hr
          · simp only [Outcome.ok.injEq] at hr
            subst hr; omega
          · exact ih (pulls ++ b) (page + 1) hlen r hr

/-- **C4**: with a configured positive limit, a successful fetch never
returns more than `limit` records. -/
theorem fetch_limit_bound {α : Type} (status : String) (l : Nat)
    (ca cb : Option String) (script : List (Response α)) (hl : 0 < l)
    (r : List α)
    (hr : (fetch_pull_requests status (some l) ca cb script).1 = Outcome.ok r) :
    r.length ≤ l := by
  unfold fetch_pull_requests at hr
  split at hr
  · exact Outcome.noConfusion hr
  · split at hr
    · exact Outcome.noConfusion hr
    · exact fetchLoop_limit_le status _ l hl script [] 1 (by simpa using hl) r hr

/-- Witness for C4 at the spec's concrete scenario: `limit = 50` and a first
page of 100 records gives exactly 50 records from exactly 1 request. -/
theorem fetch_limit_bound_witness :
    0 < 50 ∧
    (fetch_pull_requests "open" (some 50) none none
        [Response.batch (List.replicate 100 (0 : Nat))]).1
      = Outcome.ok (List.replicate 50 (0 : Nat)) ∧
    requestCount (fetch_pull_requests "open" (some 50) none none
        [Response.batch (List.replicate 100 (0 : Nat))]).2 = 1 ∧
    (List.replicate 50 (0 : Nat)).length ≤ 50 :=
  ⟨by decide, by decide, by decide,
   fetch_limit_bound "open" 50 none none
     [Response.batch (List.replicate 100 (0 : Nat))] (by decide)
     (List.replicate 50 (0 : Nat)) (by decide)⟩

/-- Without a truthy limit, the loop consumes every full page, stops at the
first empty-or-short page with the concatenated accumulator, and issues one
request per consumed page. -/
theorem fetchLoop_noLimit {α : Type} (status : String) (created : Option String)
    (fulls : List (List α)) :
    ∀ (short : List α) (rest : List (Response α)) (pulls : List α) (page : Nat),
      (∀ b ∈ fulls, b.length = 100) → short.length < 100 →
      (fetchLoop status none created pulls page
          (fulls.map Response.batch ++ Response.batch short :: rest)).1
        = Outcome.ok (pulls ++ fulls.flatten ++ short) ∧
      requestCount (fetchLoop status none created pulls page
          (fulls.map Response.batch ++ Response.batch short :: rest)).2
        = fulls.length + 1 := by
  induction fulls with
  | nil =>
    intro short rest pulls page _ hs
    cases short with
    | nil => simp [fetchLoop, requestCount, isReq]
    | cons a t =>
      have hs' : t.length + 1 < 100 := by simpa using hs
      simp only [List.map_nil, List.nil_append, fetchLoop, List.isEmpty_cons,
        Bool.false_eq_true, if_false, limitTruthy, Bool.false_and]
      simp [hs', requestCount, isReq]
  | cons b fulls ih =>
    intro short rest pulls page hf hs
    have hb : b.length = 100 := hf b (List.mem_cons_self b fulls)
    have hbne : b.isEmpty = false := by
      cases b with
      | nil => simp at hb
      | cons x xs => rfl
    have hnd : decide (b.length < 100) = false := by simp [hb]
    have ihr := ih short rest (pulls ++ b) (page + 1)
      (fun b' hb' => hf b' (List.mem_cons_of_mem b hb')) hs
    simp only [List.map_cons, List.cons_append, fetchLoop, hbne,
      Bool.false_eq_true, if_false, limitTruthy, Bool.false_and, hnd,
      List.append_eq]
    constructor
    · rw [ihr.1]
      simp [List.append_assoc]
    · simp only [requestCount, List.countP_cons] at ihr ⊢
      simp [isReq, ihr.2]

/-- If every scripted page is full (length 100) and the limit is not truthy,
the loop never terminates on its own: it consumes the whole script and asks
for more. -/
theorem fetchLoop_allFull {α : Type} (status : String) (created : Option String)
    (fulls : List (List α)) :
    ∀ (pulls : List α) (page : Nat), (∀ b ∈ fulls, b.length = 100) →
      (fetchLoop status none created pulls page (fulls.map Response.batch)).1
        = Outcome.scriptExhausted := by
  induction fulls with
  | nil => intro pulls page _; simp [fetchLoop]
  | cons b fulls ih =>
    intro pulls page hf
    have hb : b.length = 100 := hf b (List.mem_cons_self b fulls)
    have hbne : b.isEmpty = false := by
      cases b with
      | nil => simp at hb
      | cons x xs => rfl
    have hnd : decide (b.length < 100) = false := by simp [hb]
    simp only [List.map_cons, fetchLoop, hbne, Bool.false_eq_true, if_false,
      limitTruthy, Bool.false_and, hnd]
    exact ih (pulls ++ b) (page + 1) (fun b' hb' => hf b' (List.mem_cons_of_mem b hb'))

/-- **C5**: without a limit (and with passing date validation), fetch returns
the pages concatenated in fetch order, terminating exactly at the first
empty-or-short page — one request per consumed page, later scripted responses
untouched — and a script of only full pages never terminates the loop. -/
theorem fetch_no_limit_pages {α : Type} (status : String) (ca cb : Option String)
    (fulls : List (List α)) (short : List α) (rest : List (Response α))
    (h1 : (pyTruthyStr ca && !validate_date (ca.getD "")) = false)
    (h2 : (pyTruthyStr cb && !validate_date (cb.getD "")) = false)
    (hf : ∀ b ∈ fulls, b.length = 100) (hs : short.length < 100) :
    (fetch_pull_requests status none ca cb
        (fulls.map Response.batch ++ Response.batch short :: rest)).1
      = Outcome.ok (fulls.flatten ++ short) ∧
    requestCount (fetch_pull_requests status none ca cb
        (fulls.map Response.batch ++ Response.batch short :: rest)).2
      = fulls.length + 1 ∧
    (fetch_pull_requests status none ca cb (fulls.map Response.batch)).1
      = Outcome.scriptExhausted := by
  unfold fetch_pull_requests
  simp only [h1, h2, Bool.false_eq_true, if_false]
  obtain ⟨ha, hb⟩ := fetchLoop_noLimit status (createdParam ca cb) fulls
    short rest [] 1 hf hs
  refine ⟨by simpa using ha, ?_, ?_⟩
  · simp only [requestCount, List.countP_cons, List.countP_append,
      List.countP_nil, isReq] at hb ⊢
    simpa using hb
  · exact fetchLoop_allFull status (createdParam ca cb) fulls [] 1 hf

set_option maxRecDepth 8000 in
/-- Witness for C5 at the spec's concrete scenario: two full pages then an
empty third page give 200 records from exactly 3 requests. -/
theorem fetch_no_limit_pages_witness :
    (fetch_pull_requests "open" none none none
        ([List.replicate 100 (0 : Nat), List.replicate 100 1].map Response.batch
          ++ Response.batch [] :: [])).1
      = Outcome.ok ([List.replicate 100 (0 : Nat), List.replicate 100 1].flatten ++ []) ∧
    requestCount (fetch_pull_requests "open" none none none
        ([List.replicate 100 (0 : Nat), List.replicate 100 1].map Response.batch
          ++ Response.batch [] :: [])).2
      = [List.replicate 100 (0 : Nat), List.replicate 100 1].length + 1 ∧
    ([List.replicate 100 (0 : Nat), List.replicate 100 1].flatten
      ++ ([] : List Nat)).length = 200 := by
  have h := fetch_no_limit_pages "open" (none : Option String) (none : Option String)
    [List.replicate 100 (0 : Nat), List.replicate 100 1] [] [] rfl rfl
    (by decide) (by decide)
  exact ⟨h.1, h.2.1, by decide⟩

/-- **C7**: whenever the invocation reaches the point of acquiring the HTTP
session (both date bounds pass validation), the emitted trace opens the
session exactly once, first, and closes it exactly once, last — on success,
early termination, mid-loop failure, and script exhaustion alike. -/
theorem fetch_session_scoped {α : Type} (status : String) (limit : Option Nat)
    (ca cb : Option String) (script : List (Response α))
    (h1 : (pyTruthyStr ca && !validate_date (ca.getD "")) = false)
    (h2 : (pyTruthyStr cb && !validate_date (cb.getD "")) = false) :
    scopedSession (fetch_pull_requests status limit ca cb script).2 = true := by
  unfold fetch_pull_requests
  simp only [h1, h2, Bool.false_eq_true, if_false]
  have hreq : ∀ e ∈ (fetchLoop status limit (createdParam ca cb)
      ([] : List α) 1 script).2, isReq e = true := by
    intro e he
    obtain ⟨n, hn⟩ := fetchLoop_mem_req status limit (createdParam ca cb)
      script [] 1 e he
    rw [hn]; rfl
  simp only [scopedSession, Bool.and_eq_true, decide_eq_true_eq]
  refine ⟨⟨⟨rfl, ?_⟩, ?_⟩, ?_⟩
  · rw [List.getLast?_concat]
  · simp only [List.countP_cons, List.countP_append, List.countP_nil]
    rw [List.countP_eq_zero.mpr ?_]
    · rfl
    · intro e he
      have := hreq e he
      simp only [decide_eq_true_eq]
      intro hcontra
      rw [hcontra] at this
      exact Bool.noConfusion this
  · simp only [List.countP_cons, List.countP_append, List.countP_nil]
    rw [List.countP_eq_zero.mpr ?_]
    · rfl
    · intro e he
      have := hreq e he
      simp only [decide_eq_true_eq]
      intro hcontra
      rw [hcontra] at this
      exact Bool.noConfusion this

/-- Witness for C7: a run that fails with HTTP 401 mid-loop still closes the
session. -/
theorem fetch_session_scoped_witness :
    scopedSession (fetch_pull_requests "open" none none none
      [Response.batch [(1 : Nat), 2], Response.httpFailure 401]).2 = true :=
  fetch_session_scoped "open" none none none
    [Response.batch [(1 : Nat), 2], Response.httpFailure 401] rfl rfl

/-- The loop behaves identically under `limit = 0` and `limit = None`: `0` is
falsy, so the truncation branch is disabled in both. -/
theorem fetchLoop_zero_limit {α : Type} (status : String) (created : Option String)
    (script : List (Response α)) :
    ∀ (pulls : List α) (page : Nat),
      fetchLoop status (some 0) created pulls page script
        = fetchLoop status none created pulls page script := by
  induction script with
  | nil => intro pulls page; rfl
  | cons r script ih =>
    intro pulls page
    cases r with
    | httpFailure s => rfl
    | batch b =>
      simp only [fetchLoop, limitTruthy, bne_self_eq_false, Bool.false_and,
        Bool.false_eq_true, if_false]
      rw [ih]

/-- **C8**: `limit = 0` is treated as an absent limit — the whole invocation
(outcome and trace) coincides with the `limit = None` invocation: no
truncation to the empty list, pagination continues to the first
empty-or-short page. -/
theorem fetch_zero_limit_as_none {α : Type} (status : String)
    (ca cb : Option String) (script : List (Response α)) :
    fetch_pull_requests status (some 0) ca cb script
      = fetch_pull_requests status none ca cb script := by
  unfold fetch_pull_requests
  rw [fetchLoop_zero_limit]

/-- An empty-string bound never contributes a `created` constraint: the
constraint computation treats it as absent. -/
theorem createdParam_empty (ca cb : Option String) :
    createdParam (some "") cb = createdParam none cb ∧
    createdParam ca (some "") = createdParam ca none := by
  have he : "".isEmpty = true := rfl
  constructor
  · simp [createdParam, pyTruthyStr, he]
  · simp [createdParam, pyTruthyStr, he]

/-- **C9**: an empty-string date bound is treated as absent — no
`InvalidDateFormat` is raised for it, and the whole invocation (outcome and
trace, hence every emitted `created` constraint) coincides with the
invocation where that bound is `None`. -/
theorem fetch_empty_bound_as_absent {α : Type} (status : String)
    (limit : Option Nat) (ca cb : Option String) (script : List (Response α)) :
    fetch_pull_requests status limit (some "") cb script
      = fetch_pull_requests status limit none cb script ∧
    fetch_pull_requests status limit ca (some "") script
      = fetch_pull_requests status limit ca none script := by
  constructor
  · unfold fetch_pull_requests
    rw [(createdParam_empty ca cb).1]
    rfl
  · unfold fetch_pull_requests
    rw [(createdParam_empty ca cb).2]
    rfl

/-! ## Correctness of `validate_date` against the spec's calendar-date
syntax -/

/-- A character whose code point is 45 is the dash. -/
theorem char_eq_dash {c : Char} (h : c.toNat = 45) : c = '-' := by
  have hv : c.val = ('-').val := by
    apply UInt32.ext_iff.mpr
    simpa [Char.toNat] using h
  exact Char.ext hv

/-- A character whose code point is 32 is the space. -/
theorem char_eq_space {c : Char} (h : c.toNat = 32) : c = ' ' := by
  have hv : c.val = (' ').val := by
    apply UInt32.ext_iff.mpr
    simpa [Char.toNat] using h
  exact Char.ext hv

/-- A list of length four is a four-element list. -/
theorem exists_four_of_length {l : List Char} (h : l.length = 4) :
    ∃ a b c d, l = [a, b, c, d] := by
  match l, h with
  | [a, b, c, d], _ => exact ⟨a, b, c, d, rfl⟩

/-- `digitsVal` of a four-element list. -/
theorem digitsVal_four (a b c d : Char) :
    digitsVal [a, b, c, d] = dv a * 1000 + dv b * 100 + dv c * 10 + dv d := by
  simp [digitsVal, List.foldl]
  ring

/-- `digitsVal` of a two-element list. -/
theorem digitsVal_two (a b : Char) : digitsVal [a, b] = dv a * 10 + dv b := by
  simp [digitsVal, List.foldl]

/-- `digitsVal` of a singleton. -/
theorem digitsVal_one (a : Char) : digitsVal [a] = dv a := by
  simp [digitsVal, List.foldl]

/-- Four digit characters parse as a year, leaving the remainder. -/
theorem parseYear_complete (a b c d : Char) (r : List Char)
    (h : allD [a, b, c, d] = true) :
    parseYear ([a, b, c, d] ++ r) = some (digitsVal [a, b, c, d], r) := by
  simp only [allD, List.all_cons, List.all_nil, Bool.and_true,
    Bool.and_eq_true] at h
  obtain ⟨ha, hb, hc, hd⟩ := h
  simp only [List.cons_append, List.nil_append, parseYear, ha, hb, hc, hd,
    Bool.and_self, if_true, digitsVal_four]

/-- A digit string of one or two characters with value between 1 and 31 is
consumed in full by the day pattern. -/
theorem parseDay2_complete (ds : List Char) (h : allD ds = true)
    (hlen : ds.length = 1 ∨ ds.length = 2) (h1 : 1 ≤ digitsVal ds)
    (h31 : digitsVal ds ≤ 31) :
    parseDay2 ds = some (digitsVal ds, []) := by
  cases ds with
  | nil => simp at hlen
  | cons c t =>
    cases t with
    | nil =>
      simp only [allD, List.all_cons, List.all_nil, Bool.and_true, isD,
        Bool.and_eq_true, decide_eq_true_eq] at h
      obtain ⟨hA, hB⟩ := h
      rw [digitsVal_one] at h1 h31 ⊢
      simp only [dv] at h1 h31
      have hcond : (decide (49 ≤ c.toNat) && decide (c.toNat ≤ 57)) = true := by
        simp only [Bool.and_eq_true, decide_eq_true_eq]
        constructor <;> omega
      simp only [parseDay2, hcond, if_true]
    | cons c2 t2 =>
      cases t2 with
      | cons c3 t3 => simp at hlen
      | nil =>
        simp only [allD, List.all_cons, List.all_nil, Bool.and_true, isD,
          Bool.and_eq_true, decide_eq_true_eq] at h
        obtain ⟨⟨hc1, hc2⟩, hc3, hc4⟩ := h
        rw [digitsVal_two] at h1 h31 ⊢
        simp only [dv] at h1 h31
        by_cases ha : c.toNat = 51
        · have hb' : c2.toNat = 48 ∨ c2.toNat = 49 := by omega
          have g1 : (decide (c.toNat = 51) &&
              (decide (c2.toNat = 48) || decide (c2.toNat = 49))) = true := by
            rcases hb' with hb' | hb' <;> simp [ha, hb']
          simp only [parseDay2, g1, if_true]
          simp only [Option.some.injEq, Prod.mk.injEq, and_true, dv]
          omega
        · have g1 : (decide (c.toNat = 51) &&
              (decide (c2.toNat = 48) || decide (c2.toNat = 49))) = false := by
            simp [ha]
          by_cases hb : c.toNat = 49 ∨ c.toNat = 50
          · have g2 : ((decide (c.toNat = 49) || decide (c.toNat = 50)) && isD c2)
                = true := by
              rcases hb with hb | hb <;> simp [hb, isD, hc3, hc4]
            simp only [parseDay2, g1, Bool.false_eq_true, if_false, g2, if_true]
          · have h49 : decide (c.toNat = 49) = false := by simp; omega
            have h50 : decide (c.toNat = 50) = false := by simp; omega
            have g2 : ((decide (c.toNat = 49) || decide (c.toNat = 50)) && isD c2)
                = false := by simp [h49, h50]
            by_cases hcz : c.toNat = 48
            · have g3 : (decide (c.toNat = 48) &&
                  (decide (49 ≤ c2.toNat) && decide (c2.toNat ≤ 57))) = true := by
                simp only [Bool.and_eq_true, decide_eq_true_eq]
                refine ⟨hcz, ?_, ?_⟩ <;> omega
              simp only [parseDay2, g1, Bool.false_eq_true, if_false, g2, g3,
                if_true]
              simp only [Option.some.injEq, Prod.mk.injEq, and_true, dv]
              omega
            · exfalso
              omega

/-- A month field of one or two digit characters with value between 1 and
12, followed by the dash and any field the day pattern fully consumes, is
parsed by the month and day patterns with nothing left over. -/
theorem parseMonthDay_complete (ms ds : List Char) (dval : Nat)
    (hm : allD ms = true) (hmlen : ms.length = 1 ∨ ms.length = 2)
    (hm1 : 1 ≤ digitsVal ms) (hm12 : digitsVal ms ≤ 12)
    (hday : parseDay2 ds = some (dval, [])) :
    parseMonthDay (ms ++ '-' :: ds) = some (digitsVal ms, dval, []) := by
  have hpd : parseDash ('-' :: ds) = some ds := by simp [parseDash]
  have hdd : parseDashDay ('-' :: ds) = some (dval, []) := by
    simp [parseDashDay, hpd, hday]
  have hdash48 : decide (48 ≤ ('-').toNat) = false := by decide
  have hdash49 : decide (49 ≤ ('-').toNat) = false := by decide
  cases ms with
  | nil => simp at hmlen
  | cons c t =>
    cases t with
    | nil =>
      simp only [allD, List.all_cons, List.all_nil, Bool.and_true, isD,
        Bool.and_eq_true, decide_eq_true_eq] at hm
      obtain ⟨hA, hB⟩ := hm
      rw [digitsVal_one] at hm1 hm12 ⊢
      simp only [dv] at hm1 hm12
      have g1 : (decide (c.toNat = 49) &&
          (decide (48 ≤ ('-').toNat) && decide (('-').toNat ≤ 50))) = false := by
        simp [hdash48]
      have g2 : (decide (c.toNat = 48) &&
          (decide (49 ≤ ('-').toNat) && decide (('-').toNat ≤ 57))) = false := by
        simp [hdash49]
      have g3 : (decide (49 ≤ c.toNat) && decide (c.toNat ≤ 57)) = true := by
        simp only [Bool.and_eq_true, decide_eq_true_eq]
        constructor <;> omega
      simp only [List.cons_append, List.nil_append, parseMonthDay, g1,
        Bool.false_eq_true, if_false, g2, g3, if_true, hdd]
    | cons c2 t2 =>
      cases t2 with
      | cons c3 t3 => simp at hmlen
      | nil =>
        simp only [allD, List.all_cons, List.all_nil, Bool.and_true, isD,
          Bool.and_eq_true, decide_eq_true_eq] at hm
        obtain ⟨⟨hc1, hc2⟩, hc3, hc4⟩ := hm
        rw [digitsVal_two] at hm1 hm12 ⊢
        simp only [dv] at hm1 hm12
        by_cases ha : c.toNat = 49
        · have g1 : (decide (c.toNat = 49) &&
              (decide (48 ≤ c2.toNat) && decide (c2.toNat ≤ 50))) = true := by
            simp only [Bool.and_eq_true, decide_eq_true_eq]
            refine ⟨ha, ?_, ?_⟩ <;> omega
          simp only [List.cons_append, List.nil_append, parseMonthDay, g1,
            if_true, hdd]
          simp only [Option.some.injEq, Prod.mk.injEq, and_true, true_and, dv]
          omega
        · have g1 : (decide (c.toNat = 49) &&
              (decide (48 ≤ c2.toNat) && decide (c2.toNat ≤ 50))) = false := by
            simp [ha]
          by_cases hz : c.toNat = 48
          · have g2 : (decide (c.toNat = 48) &&
                (decide (49 ≤ c2.toNat) && decide (c2.toNat ≤ 57))) = true := by
              simp only [Bool.and_eq_true, decide_eq_true_eq]
              refine ⟨hz, ?_, ?_⟩ <;> omega
            simp only [List.cons_append, List.nil_append, parseMonthDay, g1,
              Bool.false_eq_true, if_false, g2, if_true, hdd]
            simp only [Option.some.injEq, Prod.mk.injEq, and_true, true_and, dv]
            omega
          · exfalso
            omega

/-- No month has more than 31 days. -/
theorem daysInMonth_le_31 (y m : Nat) : daysInMonth y m ≤ 31 := by
  unfold daysInMonth
  split_ifs <;> omega

/-- Completeness: every string of the spec's calendar-date syntax is accepted
by `validate_date`. -/
theorem validate_date_of_spec (s : String) (h : SpecValidDateStr s) :
    validate_date s = true := by
  obtain ⟨ys, ms, ds, hdata, hys, hylen, hy1, hms, hmlen, hm1, hm12, hds,
    hdlen, hd1, hdmax⟩ := h
  obtain ⟨a, b, c, d, rfl⟩ := exists_four_of_length hylen
  have h31 : digitsVal ds ≤ 31 :=
    le_trans hdmax (daysInMonth_le_31 (digitsVal [a, b, c, d]) (digitsVal ms))
  have hY := parseYear_complete a b c d ('-' :: (ms ++ '-' :: ds)) hys
  have hMD := parseMonthDay_complete ms ds (digitsVal ds) hms hmlen hm1 hm12
    (parseDay2_complete ds hds hdlen hd1 h31)
  have hpd : parseDash ('-' :: (ms ++ '-' :: ds)) = some (ms ++ '-' :: ds) := by
    simp [parseDash]
  have hstr : strptimeYMD s
      = some (digitsVal [a, b, c, d], digitsVal ms, digitsVal ds) := by
    simp only [strptimeYMD, hdata, hY, hpd, hMD, List.isEmpty_nil, if_true]
  simp only [validate_date, hstr, Bool.and_eq_true, decide_eq_true_eq]
  exact ⟨⟨hy1, hd1⟩, hdmax⟩

/-- The day pattern's final alternative consumes a space-padded nonzero
digit in full. -/
theorem parseDay2_space (ch : Char) (h1 : 49 ≤ ch.toNat) (h2 : ch.toNat ≤ 57) :
    parseDay2 [' ', ch] = some (dv ch, []) := by
  have g1 : (decide ((' ').toNat = 51) &&
      (decide (ch.toNat = 48) || decide (ch.toNat = 49))) = false := by simp
  have g2 : ((decide ((' ').toNat = 49) || decide ((' ').toNat = 50)) && isD ch)
      = false := by simp
  have g3 : (decide ((' ').toNat = 48) &&
      (decide (49 ≤ ch.toNat) && decide (ch.toNat ≤ 57))) = false := by simp
  have g4 : (decide (49 ≤ (' ').toNat) && decide ((' ').toNat ≤ 57)) = false := by
    simp
  have g5 : (decide ((' ').toNat = 32) &&
      (decide (49 ≤ ch.toNat) && decide (ch.toNat ≤ 57))) = true := by
    simp only [Bool.and_eq_true, decide_eq_true_eq]
    exact ⟨rfl, h1, h2⟩
  simp only [parseDay2, g1, Bool.false_eq_true, if_false, g2, g3, g4, g5,
    if_true]

/-- Every month has at least 28 days. -/
theorem daysInMonth_ge_28 (y m : Nat) : 28 ≤ daysInMonth y m := by
  unfold daysInMonth
  split_ifs <;> omega

/-- Completeness for the space-padded-day shape: every such string is
accepted by `validate_date`. -/
theorem validate_date_of_space (s : String) (h : SpaceDayDateStr s) :
    validate_date s = true := by
  obtain ⟨ys, ms, ch, hdata, hys, hylen, hy1, hms, hmlen, hm1, hm12, hc1,
    hc2⟩ := h
  obtain ⟨a, b, c, d, rfl⟩ := exists_four_of_length hylen
  have hY := parseYear_complete a b c d ('-' :: (ms ++ '-' :: [' ', ch])) hys
  have hMD := parseMonthDay_complete ms [' ', ch] (dv ch) hms hmlen hm1 hm12
    (parseDay2_space ch hc1 hc2)
  have hpd : parseDash ('-' :: (ms ++ '-' :: [' ', ch]))
      = some (ms ++ '-' :: [' ', ch]) := by
    simp [parseDash]
  have hstr : strptimeYMD s
      = some (digitsVal [a, b, c, d], digitsVal ms, dv ch) := by
    simp only [strptimeYMD, hdata, hY, hpd, hMD, List.isEmpty_nil, if_true]
  simp only [validate_date, hstr, Bool.and_eq_true, decide_eq_true_eq]
  refine ⟨⟨hy1, ?_⟩, ?_⟩
  · simp only [dv]; omega
  · have := daysInMonth_ge_28 (digitsVal [a, b, c, d]) (digitsVal ms)
    simp only [dv]
    omega

/-- A list of length one is a singleton. -/
theorem exists_one_of_length {l : List Char} (h : l.length = 1) :
    ∃ a, l = [a] := by
  match l, h with
  | [a], _ => exact ⟨a, rfl⟩

/-- A list of length two is a two-element list. -/
theorem exists_two_of_length {l : List Char} (h : l.length = 2) :
    ∃ a b, l = [a, b] := by
  match l, h with
  | [a, b], _ => exact ⟨a, b, rfl⟩

/-- A character with code point between 48 and 57 is a digit list of one. -/
theorem allD_one {c : Char} (h1 : 48 ≤ c.toNat) (h2 : c.toNat ≤ 57) :
    allD [c] = true := by
  simp only [allD, List.all_cons, List.all_nil, Bool.and_true, isD,
    Bool.and_eq_true, decide_eq_true_eq]
  exact ⟨h1, h2⟩

/-- Two characters with code points between 48 and 57 form a digit list. -/
theorem allD_two {c c2 : Char} (h1 : 48 ≤ c.toNat) (h2 : c.toNat ≤ 57)
    (h3 : 48 ≤ c2.toNat) (h4 : c2.toNat ≤ 57) : allD [c, c2] = true := by
  simp only [allD, List.all_cons, List.all_nil, Bool.and_true, isD,
    Bool.and_eq_true, decide_eq_true_eq]
  exact ⟨⟨h1, h2⟩, h3, h4⟩

/-- Soundness of the year pattern: a successful parse consumed exactly four
digit characters whose value is the reported year. -/
theorem parseYear_sound {l : List Char} {y : Nat} {r : List Char}
    (h : parseYear l = some (y, r)) :
    ∃ ys, l = ys ++ r ∧ allD ys = true ∧ ys.length = 4 ∧ digitsVal ys = y := by
  cases l with
  | nil => simp [parseYear] at h
  | cons c1 t1 =>
  cases t1 with
  | nil => simp [parseYear] at h
  | cons c2 t2 =>
  cases t2 with
  | nil => simp [parseYear] at h
  | cons c3 t3 =>
  cases t3 with
  | nil => simp [parseYear] at h
  | cons c4 rest =>
    simp only [parseYear] at h
    by_cases hc : (isD c1 && isD c2 && isD c3 && isD c4) = true
    · rw [if_pos hc] at h
      simp only [Option.some.injEq, Prod.mk.injEq] at h
      obtain ⟨hv, hr⟩ := h
      simp only [Bool.and_eq_true] at hc
      refine ⟨[c1, c2, c3, c4], by simp [hr], ?_, rfl, ?_⟩
      · simp only [allD, List.all_cons, List.all_nil, Bool.and_true]
        simp [hc.1.1.1, hc.1.1.2, hc.1.2, hc.2]
      · rw [digitsVal_four, hv]
    · rw [if_neg hc] at h
      exact Option.noConfusion h

/-- Soundness of the literal dash. -/
theorem parseDash_sound {l r : List Char} (h : parseDash l = some r) :
    l = '-' :: r := by
  cases l with
  | nil => simp [parseDash] at h
  | cons c t =>
    simp only [parseDash] at h
    by_cases hc : c.toNat = 45
    · rw [if_pos hc] at h
      rw [char_eq_dash hc, Option.some.inj h]
    · rw [if_neg hc] at h
      exact Option.noConfusion h

/-- Soundness of the day pattern: a successful parse consumed one or two
digit characters whose value, between 1 and 31, is the reported day. -/
theorem parseDay2_sound {l : List Char} {d : Nat} {r : List Char}
    (h : parseDay2 l = some (d, r)) :
    ∃ ds, l = ds ++ r ∧ DayField ds d := by
  cases l with
  | nil => simp [parseDay2] at h
  | cons c t =>
    cases t with
    | nil =>
      simp only [parseDay2] at h
      by_cases g : (decide (49 ≤ c.toNat) && decide (c.toNat ≤ 57)) = true
      · rw [if_pos g] at h
        simp only [Option.some.injEq, Prod.mk.injEq] at h
        obtain ⟨hv, hr⟩ := h
        simp only [Bool.and_eq_true, decide_eq_true_eq] at g
        refine ⟨[c], by simp [← hr], Or.inl ⟨allD_one (by omega) g.2,
          Or.inl rfl, ?_, ?_, ?_⟩⟩
        · rw [digitsVal_one, hv]
        · simp only [dv] at hv; omega
        · simp only [dv] at hv; omega
      · rw [if_neg g] at h
        exact Option.noConfusion h
    | cons c2 rest2 =>
      simp only [parseDay2] at h
      by_cases g1 : (decide (c.toNat = 51) &&
          (decide (c2.toNat = 48) || decide (c2.toNat = 49))) = true
      · rw [if_pos g1] at h
        simp only [Option.some.injEq, Prod.mk.injEq] at h
        obtain ⟨hv, hr⟩ := h
        simp only [Bool.and_eq_true, Bool.or_eq_true, decide_eq_true_eq] at g1
        refine ⟨[c, c2], by simp [hr], Or.inl ⟨allD_two (by omega) (by omega)
          (by omega) (by omega), Or.inr rfl, ?_, ?_, ?_⟩⟩
        · rw [digitsVal_two]
          simp only [dv] at hv ⊢
          omega
        · simp only [dv] at hv; omega
        · simp only [dv] at hv; omega
      · rw [if_neg g1] at h
        by_cases g2 : ((decide (c.toNat = 49) || decide (c.toNat = 50)) && isD c2)
            = true
        · rw [if_pos g2] at h
          simp only [Option.some.injEq, Prod.mk.injEq] at h
          obtain ⟨hv, hr⟩ := h
          simp only [Bool.and_eq_true, Bool.or_eq_true, decide_eq_true_eq,
            isD] at g2
          refine ⟨[c, c2], by simp [hr], Or.inl ⟨allD_two (by omega) (by omega)
            (by omega) (by omega), Or.inr rfl, ?_, ?_, ?_⟩⟩
          · rw [digitsVal_two, hv]
          · simp only [dv] at hv; omega
          · simp only [dv] at hv; omega
        · rw [if_neg g2] at h
          by_cases g3 : (decide (c.toNat = 48) &&
              (decide (49 ≤ c2.toNat) && decide (c2.toNat ≤ 57))) = true
          · rw [if_pos g3] at h
            simp only [Option.some.injEq, Prod.mk.injEq] at h
            obtain ⟨hv, hr⟩ := h
            simp only [Bool.and_eq_true, decide_eq_true_eq] at g3
            refine ⟨[c, c2], by simp [hr], Or.inl ⟨allD_two (by omega) (by omega)
              (by omega) (by omega), Or.inr rfl, ?_, ?_, ?_⟩⟩
            · rw [digitsVal_two]
              simp only [dv] at hv ⊢
              omega
            · simp only [dv] at hv; omega
            · simp only [dv] at hv; omega
          · rw [if_neg g3] at h
            by_cases g4 : (decide (49 ≤ c.toNat) && decide (c.toNat ≤ 57)) = true
            · rw [if_pos g4] at h
              simp only [Option.some.injEq, Prod.mk.injEq] at h
              obtain ⟨hv, hr⟩ := h
              simp only [Bool.and_eq_true, decide_eq_true_eq] at g4
              refine ⟨[c], by simp [← hr], Or.inl ⟨allD_one (by omega) g4.2,
                Or.inl rfl, ?_, ?_, ?_⟩⟩
              · rw [digitsVal_one, hv]
              · simp only [dv] at hv; omega
              · simp only [dv] at hv; omega
            · rw [if_neg g4] at h
              by_cases g5 : (decide (c.toNat = 32) &&
                  (decide (49 ≤ c2.toNat) && decide (c2.toNat ≤ 57))) = true
              · rw [if_pos g5] at h
                simp only [Option.some.injEq, Prod.mk.injEq] at h
                obtain ⟨hv, hr⟩ := h
                simp only [Bool.and_eq_true, decide_eq_true_eq] at g5
                refine ⟨[c, c2], by simp [hr],
                  Or.inr ⟨c2, ?_, g5.2.1, g5.2.2, hv⟩⟩
                rw [char_eq_space g5.1]
              · rw [if_neg g5] at h
                exact Option.noConfusion h

/-- Soundness of the dash-then-day continuation. -/
theorem parseDashDay_sound {l : List Char} {d : Nat} {r : List Char}
    (h : parseDashDay l = some (d, r)) :
    ∃ ds, l = '-' :: (ds ++ r) ∧ DayField ds d := by
  unfold parseDashDay at h
  cases hq : parseDash l with
  | none => rw [hq] at h; exact Option.noConfusion h
  | some q =>
    rw [hq] at h
    obtain ⟨ds, hds, hdf⟩ := parseDay2_sound h
    exact ⟨ds, by rw [parseDash_sound hq, hds], hdf⟩

/-- Soundness of the month-dash-day pattern: a successful parse consumed a
one-or-two digit month of value between 1 and 12, a dash, and a day field
of one of the day pattern's shapes. -/
theorem parseMonthDay_sound {l : List Char} {m d : Nat} {r : List Char}
    (h : parseMonthDay l = some (m, d, r)) :
    ∃ ms ds, l = ms ++ '-' :: (ds ++ r) ∧
      allD ms = true ∧ (ms.length = 1 ∨ ms.length = 2) ∧ digitsVal ms = m ∧
      1 ≤ m ∧ m ≤ 12 ∧ DayField ds d := by
  cases l with
  | nil => simp [parseMonthDay] at h
  | cons c t =>
    cases t with
    | nil =>
      simp only [parseMonthDay] at h
      by_cases g : (decide (49 ≤ c.toNat) && decide (c.toNat ≤ 57)) = true
      · rw [if_pos g] at h
        simp [parseDashDay, parseDash] at h
      · rw [if_neg g] at h
        exact Option.noConfusion h
    | cons c2 rest2 =>
      simp only [parseMonthDay] at h
      by_cases g1 : (decide (c.toNat = 49) &&
          (decide (48 ≤ c2.toNat) && decide (c2.toNat ≤ 50))) = true
      · have g1' := g1
        simp only [Bool.and_eq_true, decide_eq_true_eq] at g1'
        rw [if_pos g1] at h
        cases hq1 : parseDashDay rest2 with
        | some pr =>
          obtain ⟨d', r'⟩ := pr
          rw [hq1] at h
          simp only [Option.some.injEq, Prod.mk.injEq] at h
          obtain ⟨hm, hd, hr⟩ := h
          obtain ⟨ds, hds, hdf⟩ := parseDashDay_sound hq1
          refine ⟨[c, c2], ds, ?_, allD_two (by omega) (by omega) (by omega)
            (by omega), Or.inr rfl, ?_, by simp only [dv] at hm; omega,
            by simp only [dv] at hm; omega, hd ▸ hdf⟩
          · rw [hds, hr]
            rfl
          · rw [digitsVal_two, ← hm]
            simp only [dv]
            omega
        | none =>
          rw [hq1] at h
          have hne48 : decide (c.toNat = 48) = false := by simp; omega
          rw [if_neg (by simp [hne48])] at h
          rw [if_pos (show (decide (49 ≤ c.toNat) && decide (c.toNat ≤ 57))
            = true by simp; omega)] at h
          cases hq2 : parseDashDay (c2 :: rest2) with
          | some pr =>
            obtain ⟨d', r'⟩ := pr
            obtain ⟨ds, hds, _⟩ := parseDashDay_sound hq2
            injection hds with hc2 _
            exfalso
            have : c2.toNat = 45 := by rw [hc2]; rfl
            omega
          | none =>
            rw [hq2] at h
            exact Option.noConfusion h
      · rw [if_neg g1] at h
        by_cases g2 : (decide (c.toNat = 48) &&
            (decide (49 ≤ c2.toNat) && decide (c2.toNat ≤ 57))) = true
        · have g2' := g2
          simp only [Bool.and_eq_true, decide_eq_true_eq] at g2'
          rw [if_pos g2] at h
          cases hq1 : parseDashDay rest2 with
          | some pr =>
            obtain ⟨d', r'⟩ := pr
            rw [hq1] at h
            simp only [Option.some.injEq, Prod.mk.injEq] at h
            obtain ⟨hm, hd, hr⟩ := h
            obtain ⟨ds, hds, hdf⟩ := parseDashDay_sound hq1
            refine ⟨[c, c2], ds, ?_, allD_two (by omega) (by omega) (by omega)
              (by omega), Or.inr rfl, ?_, by simp only [dv] at hm; omega,
              by simp only [dv] at hm; omega, hd ▸ hdf⟩
            · rw [hds, hr]
              rfl
            · rw [digitsVal_two, ← hm]
              simp only [dv]
              omega
          | none =>
            rw [hq1] at h
            have hne49 : decide (49 ≤ c.toNat) = false := by simp; omega
            rw [if_neg (by simp [hne49])] at h
            exact Option.noConfusion h
        · rw [if_neg g2] at h
          by_cases g3 : (decide (49 ≤ c.toNat) && decide (c.toNat ≤ 57)) = true
          · have g3' := g3
            simp only [Bool.and_eq_true, decide_eq_true_eq] at g3'
            rw [if_pos g3] at h
            cases hq2 : parseDashDay (c2 :: rest2) with
            | some pr =>
              obtain ⟨d', r'⟩ := pr
              rw [hq2] at h
              simp only [Option.some.injEq, Prod.mk.injEq] at h
              obtain ⟨hm, hd, hr⟩ := h
              obtain ⟨ds, hds, hdf⟩ := parseDashDay_sound hq2
              injection hds with hc2 hrest2
              refine ⟨[c], ds, ?_, allD_one (by omega) g3'.2, Or.inl rfl, ?_,
                by simp only [dv] at hm; omega, by simp only [dv] at hm; omega,
                hd ▸ hdf⟩
              · rw [hc2, hrest2, hr]
                rfl
              · rw [digitsVal_one, hm]
            | none =>
              rw [hq2] at h
              exact Option.noConfusion h
          · rw [if_neg g3] at h
            exact Option.noConfusion h

/-- Soundness: every string `validate_date` accepts has either the spec's
calendar-date syntax or the space-padded-day shape of CPython 3.11+. -/
theorem spec_of_validate_date (s : String) (h : validate_date s = true) :
    SpecValidDateStr s ∨ SpaceDayDateStr s := by
  unfold validate_date at h
  cases hs : strptimeYMD s with
  | none => rw [hs] at h; exact Bool.noConfusion h
  | some t =>
    obtain ⟨y, m, d⟩ := t
    rw [hs] at h
    simp only [Bool.and_eq_true, decide_eq_true_eq] at h
    obtain ⟨⟨hy1, hd1⟩, hdm⟩ := h
    unfold strptimeYMD at hs
    split at hs
    · rename_i y' r1 hY
      split at hs
      · rename_i r2 hD
        split at hs
        · rename_i m' d' rest hM
          by_cases hre : rest.isEmpty
          · rw [if_pos hre] at hs
            simp only [Option.some.injEq, Prod.mk.injEq] at hs
            obtain ⟨hyy, hmm, hdd⟩ := hs
            obtain ⟨ys, hys_eq, hysD, hyslen, hysval⟩ := parseYear_sound hY
            have hr1 : r1 = '-' :: r2 := parseDash_sound hD
            obtain ⟨ms, ds, hl2, hmsD, hmslen, hmsval, hm1, hm12, hdf⟩ :=
              parseMonthDay_sound hM
            have hrest : rest = [] := by
              cases rest with
              | nil => rfl
              | cons a t => exact absurd hre (by simp)
            rcases hdf with ⟨hdsD, hdslen, hdsval, hd1f, hd31⟩ |
              ⟨ch, hdsEq, hch1, hch2, hchval⟩
            · refine Or.inl ⟨ys, ms, ds, ?_, hysD, hyslen, ?_, hmsD, hmslen,
                ?_, ?_, hdsD, hdslen, ?_, ?_⟩
              · rw [hys_eq, hr1, hl2, hrest, List.append_nil]
              · rw [hysval, hyy]; exact hy1
              · rw [hmsval]; exact hm1
              · rw [hmsval]; exact hm12
              · rw [hdsval, hdd]; exact hd1
              · rw [hdsval, hdd, hysval, hyy, hmsval, hmm]; exact hdm
            · refine Or.inr ⟨ys, ms, ch, ?_, hysD, hyslen, ?_, hmsD, hmslen,
                ?_, ?_, hch1, hch2⟩
              · rw [hys_eq, hr1, hl2, hrest, List.append_nil, hdsEq]
              · rw [hysval, hyy]; exact hy1
              · rw [hmsval]; exact hm1
              · rw [hmsval]; exact hm12
          · rw [if_neg hre] at hs
            exact Option.noConfusion hs
        · exact Option.noConfusion hs
      · exact Option.noConfusion hs
    · exact Option.noConfusion hs

/-- **C6** (counterexample).  The claim "`validate_date` returns true exactly
on syntactically valid calendar dates" fails on the program: CPython 3.11+'s
day pattern also matches a space-padded day, so `validate_date "2023-01- 1"`
is `true` although `"2023-01- 1"` is not of the calendar-date syntax (its
day field is not digits). -/
theorem validate_date_spec_counterexample :
    validate_date "2023-01- 1" = true ∧ ¬ SpecValidDateStr "2023-01- 1" := by
  refine ⟨by decide, ?_⟩
  rintro ⟨ys, ms, ds, hdata, hysD, hylen, hy1, hmsD, hmslen, hm1, hm12, hdsD,
    hdslen, hd1, hdmax⟩
  obtain ⟨a, b, c, d, rfl⟩ := exists_four_of_length hylen
  have h0 : "2023-01- 1".data
      = ['2', '0', '2', '3', '-', '0', '1', '-', ' ', '1'] := rfl
  rw [h0] at hdata
  simp only [List.cons_append, List.nil_append, List.cons.injEq] at hdata
  obtain ⟨_, _, _, _, _, htail⟩ := hdata
  rcases hmslen with hl1 | hl2
  · obtain ⟨x, rfl⟩ := exists_one_of_length hl1
    simp only [List.cons_append, List.nil_append, List.cons.injEq] at htail
    obtain ⟨_, habs, _⟩ := htail
    exact absurd habs (by decide)
  · obtain ⟨x, z, rfl⟩ := exists_two_of_length hl2
    simp only [List.cons_append, List.nil_append, List.cons.injEq] at htail
    obtain ⟨_, _, _, hds⟩ := htail
    rw [← hds] at hdsD
    exact absurd hdsD (by decide)

/-- **C6** (amended).  On ASCII strings — where the embedding is faithful,
CPython's `\d` being wider only off ASCII — `validate_date` accepts exactly
the spec's calendar-date syntax extended by CPython 3.11+'s space-padded
single-digit day; the spec's four concrete examples are decided as stated. -/
theorem validate_date_ascii_correct :
    (∀ s : String, s.data.all (fun c => decide (c.toNat ≤ 127)) = true →
      (validate_date s = true ↔ (SpecValidDateStr s ∨ SpaceDayDateStr s))) ∧
    validate_date "2023-01-01" = true ∧
    validate_date "2023-13-01" = false ∧
    validate_date "2023-01-32" = false ∧
    validate_date "invalid-date" = false :=
  ⟨fun s _ => ⟨spec_of_validate_date s,
    fun h => h.elim (validate_date_of_spec s) (validate_date_of_space s)⟩,
   by decide, by decide, by decide, by decide⟩

/-- Witness for the amended C6 at the spec's concrete valid date. -/
theorem validate_date_ascii_correct_witness :
    ("2023-01-01".data.all (fun c => decide (c.toNat ≤ 127)) = true) ∧
    (validate_date "2023-01-01" = true ↔
      (SpecValidDateStr "2023-01-01" ∨ SpaceDayDateStr "2023-01-01")) :=
  ⟨by decide, validate_date_ascii_correct.1 "2023-01-01" (by decide)⟩

/-- **C10**: `validate_date` also accepts date strings whose month and day
are not zero-padded to the `YYYY-MM-DD` width — `"2023-1-1"` is accepted but
is not of the padded shape — so its set of accepted strings strictly exceeds
the exactly-padded shape. -/
theorem validate_date_accepts_unpadded :
    validate_date "2023-1-1" = true ∧ isPaddedShape "2023-1-1" = false ∧
    validate_date "2023-01-01" = true ∧ isPaddedShape "2023-01-01" = true := by
  decide

end GithubPR
